import Mathlib

/-!
Shallow embedding of `convert-llama-ggmlv3-to-gguf.py`: the legacy GGJTv3
container decoder and the GGML-to-GGUF transcoding steps.  Byte buffers are
modelled as `List Nat` (each element one byte).  Reads that Python performs
with `struct.unpack` fail on a short slice, so they are modelled as `Option`;
fatal `assert`/`raise` paths are modelled with `Except`.  Machine integers
are modelled as `Nat`/`Int` with explicit reductions modulo `2 ^ 64` where
numpy int64 wraparound occurs.
-/

/-- Little-endian unsigned 32-bit read at `offset`, as performed by
`struct.unpack` on the 4-byte slice `data[offset : offset + 4]`; `none` when
the slice is short (Python raises `struct.error`). -/
def readU32 (data : List Nat) (offset : Nat) : Option Nat :=
  if offset + 4 ≤ data.length then
    some (data.getD offset 0 + 256 * data.getD (offset + 1) 0 +
      65536 * data.getD (offset + 2) 0 + 16777216 * data.getD (offset + 3) 0)
  else none

/-- Reads `count` consecutive little-endian u32 values starting at `offset`,
as `struct.unpack` with format `<nI` does in one shot: all or nothing. -/
def readU32s (data : List Nat) (offset : Nat) : Nat → Option (List Nat)
  | 0 => some []
  | n + 1 =>
    match readU32 data offset with
    | none => none
    | some v =>
      match readU32s data (offset + 4) n with
      | none => none
      | some rest => some (v :: rest)

/-- The `GGML_QUANT_SIZES` table: quantization kind code to
(block size, per-block byte size).  Codes are the numeric values of the
external `gguf.GGMLQuantizationType` enumeration (standard GGML dtype codes;
4 and 5 are unassigned).  Byte sizes are the evaluated source expressions,
e.g. Q4_0 is `2 + 16 = 18` and Q6_K is `2 + 256/2 + 256/4 + 256/16 = 210`. -/
def ggml_quant_sizes (dtype : Nat) : Option (Nat × Nat) :=
  if dtype = 0 then some (1, 4)
  else if dtype = 1 then some (1, 2)
  else if dtype = 2 then some (32, 18)
  else if dtype = 3 then some (32, 20)
  else if dtype = 6 then some (32, 22)
  else if dtype = 7 then some (32, 24)
  else if dtype = 8 then some (32, 34)
  else if dtype = 9 then some (32, 40)
  else if dtype = 10 then some (256, 84)
  else if dtype = 11 then some (256, 110)
  else if dtype = 12 then some (256, 144)
  else if dtype = 13 then some (256, 176)
  else if dtype = 14 then some (256, 210)
  else if dtype = 15 then some (256, 292)
  else none

/-- Canonical int64 representative of `z` (two's complement, numpy int64
wraparound): the unique integer congruent to `z` modulo `2 ^ 64` lying in
`[-2 ^ 63, 2 ^ 63)`. -/
def wrap64 (z : Int) : Int :=
  let m := z % (18446744073709551616 : Int)
  if m < 9223372036854775808 then m else m - 18446744073709551616

/-- Product of the dimension list as an exact integer.  `np.prod` multiplies
sequentially in int64, wrapping at every step; since reduction modulo
`2 ^ 64` commutes with multiplication, applying `wrap64` once to the exact
product yields the same int64 value, so the decoder below uses
`wrap64 (intProd dims)`.  (For an empty tuple `np.prod` returns the float
`1.0` with the same numeric value; the float contamination of the cursor
that follows is tracked separately in the directory-scan loop.) -/
def intProd (dims : List Nat) : Int :=
  dims.foldl (fun a d => a * (d : Int)) 1

/-- Decoded tensor directory entry (class `Tensor` of the source). -/
structure TensorR where
  name : List Nat
  dims : List Nat
  dtype : Nat
  start_offset : Nat
  len_bytes : Int
deriving Repr, DecidableEq

/-- `Tensor.load`: decodes one directory entry at `offset` and returns the
entry together with the cursor advance `offset_after - offset`.  Mirrors the
source: three u32 header words, bounds checks on `n_dims` and `name_len`,
catalog lookup, `n_dims` u32 dimensions, `name_len` raw name bytes (slice,
silently short at end of buffer), padding of the cursor up to the next
32-byte boundary via `(offset + 31) & ~31`, then the payload length
`(n_elems * tysize) // blksize` computed in numpy int64 arithmetic (which
can wrap) and floor division.  The advance is an `Int` because a wrapped
negative payload length moves the cursor backwards. -/
def tensorLoad (data : List Nat) (offset : Nat) : Except String (TensorR × Int) :=
  match readU32s data offset 3 with
  | some [n_dims, name_len, dtype] =>
    if n_dims ≤ 4 then
      if name_len < 4096 then
        match ggml_quant_sizes dtype with
        | none => Except.error "Unknown tensor type"
        | some (blksize, tysize) =>
          match readU32s data (offset + 12) n_dims with
          | none => Except.error "struct.error"
          | some dims =>
            let name := (data.drop (offset + 12 + 4 * n_dims)).take name_len
            let o1 := offset + 12 + 4 * n_dims + name_len
            let start := ((o1 + 31) / 32) * 32
            let n_elems := wrap64 (intProd dims)
            let n_bytes := Int.fdiv (wrap64 (n_elems * (tysize : Int))) (blksize : Int)
            Except.ok (⟨name, dims, dtype, start, n_bytes⟩,
              (start : Int) + n_bytes - (offset : Int))
      else Except.error "Absurd tensor name length"
    else Except.error "Invalid tensor dimensions"
  | _ => Except.error "struct.error"

/-- The fixed 4-byte magic tag `b'tjgg'`. -/
def ggmlMagic : List Nat := [116, 106, 103, 103]

/-- `GGMLV3Model.validate_header`: the 4 magic bytes must equal `b'tjgg'`
and the following little-endian u32 must equal 3, else `ValueError`
(a short version slice raises `struct.error`; Python short-circuits the
`or`, so a magic mismatch is reported before the version is read).
On success it returns the consumed size 8. -/
def validate_header (data : List Nat) (offset : Nat) : Except String Nat :=
  if (data.drop offset).take 4 ≠ ggmlMagic then
    Except.error "Only GGJTv3 supported"
  else
    match readU32 data (offset + 4) with
    | none => Except.error "struct.error"
    | some v =>
      if v ≠ 3 then Except.error "Only GGJTv3 supported" else Except.ok 8

/-- The seven fixed-order u32 hyperparameters plus the derived `n_ff`
(initialised to 0 by `Hyperparameters.__init__`, set later by `set_n_ff`). -/
structure Hyperparameters where
  n_vocab : Nat
  n_embd : Nat
  n_mult : Nat
  n_head : Nat
  n_layer : Nat
  n_rot : Nat
  ftype : Nat
  n_ff : Nat
deriving Repr, DecidableEq

/-- `Hyperparameters.load`: `struct.unpack` of seven u32 values; consumes
28 bytes. -/
def hyperLoad (data : List Nat) (offset : Nat) : Except String Hyperparameters :=
  match readU32s data offset 7 with
  | some [a, b, c, d, e, f, g] => Except.ok ⟨a, b, c, d, e, f, g, 0⟩
  | _ => Except.error "struct.error"

/-- `Vocab.load`: reads `n` items, each a u32 length (asserted `< 4096`),
that many raw token bytes (a slice, silently short at end of buffer, but the
cursor still advances by the full declared length), and a 4-byte score.
The score is a 32-bit float that the converter only carries through, so it
is kept as its raw little-endian u32 bit pattern.  Returns the items and the
cursor position after the vocabulary. -/
def vocabLoad (data : List Nat) (offset : Nat) :
    Nat → Except String (List (List Nat × Nat) × Nat)
  | 0 => Except.ok ([], offset)
  | n + 1 =>
    match readU32 data offset with
    | none => Except.error "struct.error"
    | some itemlen =>
      if itemlen < 4096 then
        match readU32 data (offset + 4 + itemlen) with
        | none => Except.error "struct.error"
        | some score =>
          match vocabLoad data (offset + 4 + itemlen + 4) n with
          | Except.error e => Except.error e
          | Except.ok (items, off) =>
            Except.ok (((data.drop (offset + 4)).take itemlen, score) :: items, off)
      else Except.error "Absurd vocab item length"

/-- The tensor-directory scan of `GGMLV3Model.load`:
`while offset < len(data)` parse one entry and advance by the returned
amount.  The Python loop is not structurally terminating (a wrapped negative
payload length can move the cursor backwards, see the C10 analysis), so the
model takes explicit fuel; exhausting it is a distinct model-only error.
`floatCursor` records that some previous entry had an empty dimension tuple:
`np.prod` of an empty tuple is the float `1.0`, the cursor becomes a float,
and the next slice raises `TypeError` in Python; a then negative cursor
would index from the end of the numpy buffer and is likewise modelled as a
failure. -/
def tensorsLoop (data : List Nat) :
    Nat → Int → Bool → List TensorR → Except String (List TensorR)
  | 0, _, _, _ => Except.error "model fuel exhausted"
  | fuel + 1, offset, floatCursor, acc =>
    if offset < (data.length : Int) then
      if floatCursor then
        Except.error "TypeError: slice indices must be integers"
      else if offset < 0 then
        Except.error "modelled failure: negative cursor"
      else
        match tensorLoad data offset.toNat with
        | Except.error e => Except.error e
        | Except.ok (t, adv) =>
          tensorsLoop data fuel (offset + adv) (floatCursor || t.dims.isEmpty)
            (acc ++ [t])
    else Except.ok acc

/-- Builds the `tensor_map` association (name to position) in insertion
order: `tensor_map[tensor.name] = len(tensors)` just before the append. -/
def tmapGo : Nat → List TensorR → List (List Nat × Nat)
  | _, [] => []
  | i, t :: rest => (t.name, i) :: tmapGo (i + 1) rest

/-- The fully built `tensor_map` of `GGMLV3Model.load`. -/
def buildTensorMap (ts : List TensorR) : List (List Nat × Nat) :=
  tmapGo 0 ts

/-- Python `dict.get` over the insertion-ordered association list: a later
assignment to the same key overwrites an earlier one, so the last binding
wins. -/
def dictGet (m : List (List Nat × Nat)) (k : List Nat) : Option Nat :=
  (m.reverse.find? (fun p => p.1 == k)).map (fun p => p.2)

/-- The byte string `b'layers.0.feed_forward.w1.weight'`. -/
def ffTensorName : List Nat :=
  [108, 97, 121, 101, 114, 115, 46, 48, 46, 102, 101, 101, 100, 95, 102,
   111, 114, 119, 97, 114, 100, 46, 119, 49, 46, 119, 101, 105, 103, 104,
   116]

/-- `Hyperparameters.set_n_ff`: looks the fixed feed-forward tensor name up
in `tensor_map` (the `assert` on a missing entry is `none`), indexes the
tensor list, and takes `dims[1]` (an `IndexError` on a tuple with fewer
than two dimensions is likewise `none`; both abort the decode). -/
def set_n_ff (tensorMap : List (List Nat × Nat)) (tensors : List TensorR) :
    Option Nat :=
  match dictGet tensorMap ffTensorName with
  | none => none
  | some idx =>
    match tensors.get? idx with
    | none => none
    | some t => t.dims.get? 1

/-- The fully decoded container (class `GGMLV3Model`). -/
structure GGMLModel where
  hyperparameters : Hyperparameters
  vocabItems : List (List Nat × Nat)
  tensors : List TensorR
  tensorMap : List (List Nat × Nat)
deriving Repr, DecidableEq

/-- `GGMLV3Model.load` starting at offset 0 (as `main` calls it): header,
hyperparameters, vocabulary, tensor directory, tensor map, then the
`set_n_ff` derivation whose failure aborts the decode. -/
def ggmlLoad (fuel : Nat) (data : List Nat) : Except String GGMLModel :=
  match validate_header data 0 with
  | Except.error e => Except.error e
  | Except.ok hsize =>
    match hyperLoad data hsize with
    | Except.error e => Except.error e
    | Except.ok hp =>
      match vocabLoad data (hsize + 28) hp.n_vocab with
      | Except.error e => Except.error e
      | Except.ok (vitems, voff) =>
        match tensorsLoop data fuel (voff : Int) false [] with
        | Except.error e => Except.error e
        | Except.ok tensors =>
          match set_n_ff (buildTensorMap tensors) tensors with
          | none => Except.error "Missing layer 0 FF tensor"
          | some nff =>
            Except.ok ⟨{ hp with n_ff := nff }, vitems, tensors,
              buildTensorMap tensors⟩

/-- Candidate test of the GQA divisor search:
`float(hp.n_head) / float(x) == gqa` with `gqa = float(cfg.gqa)`.  For the
ranges that occur (`n_head < 2 ^ 32` exactly representable, `1 ≤ x ≤ 255`),
IEEE-754 double division of `n_head` by `x` equals the double value of the
integer `gqa` exactly when `n_head = gqa * x` over the integers: when the
integers differ, the quotient is off from `gqa` by at least `1 / 255`, far
above a half ulp of any reachable quotient value, and when they are equal
the quotient is exact.  The comparison is therefore embedded as exact
integer equality. -/
def kvHit (n_head : Nat) (gqa : Int) (x : Nat) : Bool :=
  decide ((n_head : Int) = gqa * (x : Int))

/-- The `n_kv_head` search of `GGMLToGGUF.__init__` for `cfg.gqa != 1`:
`for x in range(1, 256)` assigns `n_kv_head = x` on every hit with no
break, so a later hit overwrites an earlier one; `None` (no hit at all)
trips the assert. -/
def resolveKvHead (n_head : Nat) (gqa : Int) : Option Nat :=
  (List.range' 1 255).foldl
    (fun acc x => if kvHit n_head gqa x then some x else acc) none

/-- Uppercase hexadecimal digit as an ASCII byte, as produced by Python
`hex(...)[2:].upper()`. -/
def hexDigit (n : Nat) : Nat :=
  if n < 10 then 48 + n else 55 + n

/-- The byte-token text `f'<0x{hv}>'` where `hv = hex(b)[2:].upper()`:
Python `hex` does not zero-pad, so a byte below 16 yields a single digit. -/
def byteTokenText (b : Nat) : List Nat :=
  [60, 48, 120] ++
    (if b < 16 then [hexDigit b] else [hexDigit (b / 16), hexDigit (b % 16)]) ++
    [62]

/-- `vbytes.replace(b' ', b'\xe2\x96\x81')`: every 0x20 byte becomes the
3-byte UTF-8 sequence of U+2581 (lower one-eighth block). -/
def spaceReplace (l : List Nat) : List Nat :=
  l.flatMap (fun b => if b = 32 then [226, 150, 129] else [b])

/-- One iteration of the heuristic branch of `GGMLToGGUF.add_vocab`:
given the enumerate index `tokid` and the decoded item `(vbytes, vscore)`,
produce `(token bytes, score, token type)` with types 1 = normal,
3 = control, 6 = byte. -/
def heuristicItem (tokid : Nat) (vbytes : List Nat) (vscore : Nat) :
    List Nat × Nat × Nat :=
  if vbytes.length = 0 then (vbytes, vscore, 3)
  else if 3 ≤ tokid ∧ tokid ≤ 258 ∧ vbytes.length = 1 then
    (byteTokenText (vbytes.headD 0), vscore, 6)
  else (spaceReplace vbytes, vscore, 1)

/-- The enumerate loop of the heuristic branch, with explicit index. -/
def heuristicGo : Nat → List (List Nat × Nat) → List (List Nat × Nat × Nat)
  | _, [] => []
  | i, (b, s) :: rest => heuristicItem i b s :: heuristicGo (i + 1) rest

/-- Heuristic vocabulary transcoding: token id is the position of the item
in the decoded vocabulary.  (The source pushes tokens, scores and types onto
three parallel lists; the zipped triple list carries the same records.) -/
def addVocabHeuristic (items : List (List Nat × Nat)) :
    List (List Nat × Nat × Nat) :=
  heuristicGo 0 items

/-- One override vocabulary entry: `vo.all_tokens()` yields tuples of
length 3 (token, score, type) or of another length, discriminated by
`len(vitem) == 3`; the tagged variant records whether a type is present. -/
inductive OVItem where
  | pair (tok : List Nat) (score : Nat)
  | triple (tok : List Nat) (score : Nat) (ty : Nat)
deriving Repr, DecidableEq

/-- Token component of an override entry. -/
def ovTok : OVItem → List Nat
  | OVItem.pair t _ => t
  | OVItem.triple t _ _ => t

/-- Score component of an override entry. -/
def ovScore : OVItem → Nat
  | OVItem.pair _ s => s
  | OVItem.triple _ s _ => s

/-- Type component of an override entry, when present. -/
def ovType : OVItem → Option Nat
  | OVItem.pair _ _ => none
  | OVItem.triple _ _ ty => some ty

/-- The override branch of `GGMLToGGUF.add_vocab`: the loop appends the
token and score of every entry to `tokens` and `scores`, and appends to
`toktypes` only for length-3 entries. -/
def addVocabOverride (items : List OVItem) :
    List (List Nat) × List Nat × List Nat :=
  items.foldl
    (fun acc it =>
      match it with
      | OVItem.pair t s => (acc.1 ++ [t], acc.2.1 ++ [s], acc.2.2)
      | OVItem.triple t s ty => (acc.1 ++ [t], acc.2.1 ++ [s], acc.2.2 ++ [ty]))
    ([], [], [])

/-- After the override loop: `assert len(tokens) == hp.n_vocab`, then the
token and score lists are handed to the writer, and the type list only
`if len(toktypes) > 0`. -/
def overrideEmit (items : List OVItem) (n_vocab : Nat) :
    Except String (List (List Nat) × List Nat × Option (List Nat)) :=
  let r := addVocabOverride items
  if r.1.length = n_vocab then
    Except.ok (r.1, r.2.1, if 0 < r.2.2.length then some r.2.2 else none)
  else Except.error "Override vocab has a different number of items"

/-- The token type positionally associated with `tokid` by the emitted
records: the writer receives plain ordered lists, so the type list is read
off at the token id position. -/
def emittedTypeAt (tys : Option (List Nat)) (tokid : Nat) : Option Nat :=
  match tys with
  | none => none
  | some l => l.get? tokid

/-- Python `name.endswith(suffix)` on byte strings (the suffixes involved
are ASCII, so the check over UTF-8 bytes and over the decoded string
agree). -/
def endsWithL (l suffix : List Nat) : Bool :=
  decide (suffix.length ≤ l.length) &&
    decide (l.drop (l.length - suffix.length) = suffix)

/-- The byte string `b'.weight'`. -/
def wSuffix : List Nat := [46, 119, 101, 105, 103, 104, 116]

/-- The byte string `b'.bias'`. -/
def bSuffix : List Nat := [46, 98, 105, 97, 115]

/-- Lookup in the canonical name table `nm` (Python `dict.get`). -/
def nameMapGet (nm : List (List Nat × List Nat)) (k : List Nat) :
    Option (List Nat) :=
  (nm.find? (fun p => p.1 == k)).map (fun p => p.2)

/-- Failure modes of the per-tensor name-mapping step of
`GGMLToGGUF.add_tensors`. -/
inductive MapFail where
  | badName
  | unboundSuffix
deriving Repr, DecidableEq

/-- The name mapping of `GGMLToGGUF.add_tensors`: strip `.weight` or
`.bias`, look the base name up, and re-append the suffix.  When the name
ends in neither suffix, the Python code falls through with the local
`suffix` unassigned and looks up the unstripped name; a missed lookup trips
the `assert` (`badName`), and a hit still crashes on
`mapped_name += suffix` with an unbound local (`unboundSuffix`) — either
way the tensor is never emitted. -/
def mapTensorName (nm : List (List Nat × List Nat)) (name : List Nat) :
    Except MapFail (List Nat) :=
  if endsWithL name wSuffix then
    match nameMapGet nm (name.take (name.length - 7)) with
    | none => Except.error MapFail.badName
    | some m => Except.ok (m ++ wSuffix)
  else if endsWithL name bSuffix then
    match nameMapGet nm (name.take (name.length - 5)) with
    | none => Except.error MapFail.badName
    | some m => Except.ok (m ++ bSuffix)
  else
    match nameMapGet nm name with
    | none => Except.error MapFail.badName
    | some _ => Except.error MapFail.unboundSuffix

/-- The dimension permutation of `GGMLToGGUF.add_tensors`: copy the
dimension list and, when it has more than one entry, exchange the first
two. -/
def swapDims (dims : List Nat) : List Nat :=
  if 1 < dims.length then
    (dims.set 1 (dims.getD 0 0)).set 0 (dims.getD 1 0)
  else dims

/-- One tensor record as handed to `gguf_writer.add_tensor`: mapped name,
permuted raw shape, raw dtype, and the byte range
`data[start_offset : start_offset + len_bytes]` referenced by offset and
length. -/
structure EmittedTensor where
  mapped_name : List Nat
  dims : List Nat
  dtype : Nat
  start_offset : Nat
  len_bytes : Int
deriving Repr, DecidableEq

/-- The per-tensor emission step of `GGMLToGGUF.add_tensors`. -/
def addTensorRecord (nm : List (List Nat × List Nat)) (t : TensorR) :
    Except MapFail EmittedTensor :=
  match mapTensorName nm t.name with
  | Except.error e => Except.error e
  | Except.ok mn =>
    Except.ok ⟨mn, swapDims t.dims, t.dtype, t.start_offset, t.len_bytes⟩

/-- A minimal well-formed container: magic, version 3, all-zero
hyperparameters (`n_vocab = 0`), and a single tensor directory entry named
`layers.0.feed_forward.w1.weight` with dims `(1, 8)`, dtype F32, whose
payload of 32 bytes starts at the 32-byte-aligned offset 96. -/
def demoBuf : List Nat :=
  [116, 106, 103, 103, 3, 0, 0, 0] ++ List.replicate 28 0 ++
    [2, 0, 0, 0, 31, 0, 0, 0, 0, 0, 0, 0, 1, 0, 0, 0, 8, 0, 0, 0] ++
    ffTensorName ++ List.replicate 9 0 ++ List.replicate 32 0

/-- The tensor record decoded from `demoBuf`. -/
def demoTensor : TensorR :=
  { name := ffTensorName, dims := [1, 8], dtype := 0,
    start_offset := 96, len_bytes := 32 }

/-- The model decoded from `demoBuf`. -/
def demoModel : GGMLModel :=
  { hyperparameters :=
      { n_vocab := 0, n_embd := 0, n_mult := 0, n_head := 0, n_layer := 0,
        n_rot := 0, ftype := 0, n_ff := 8 },
    vocabItems := [],
    tensors := [demoTensor],
    tensorMap := [(ffTensorName, 0)] }

/-- A single directory entry with one dimension of size 1 and dtype 2
(Q4_0, block size 32, type size 18): the element count 1 is not a multiple
of the block size, so `1 * 18` divided by 32 leaves remainder 18. -/
def c1Buf : List Nat :=
  [1, 0, 0, 0, 0, 0, 0, 0, 2, 0, 0, 0, 1, 0, 0, 0]

/-- A directory entry at offset 64 with dims `(8, 1073741823, 1073741825)`
and dtype F32: the element product is `2 ^ 63 - 8` (still a positive
int64), multiplying by the type size 4 wraps to the int64 value `-32`, and
the resulting advance is exactly 0. -/
def c10Buf : List Nat :=
  List.replicate 64 0 ++
    [3, 0, 0, 0, 0, 0, 0, 0, 0, 0, 0, 0, 8, 0, 0, 0,
     255, 255, 255, 63, 1, 0, 0, 64]

/-- First-some choice on options (helper for characterising the last-match
fold of the GQA search). -/
def optOr (a b : Option Nat) : Option Nat :=
  match a with
  | some x => some x
  | none => b

/-- The tensor record decoded from `c1Buf`: the inexact division 18 by 32
is silently floored to payload length 0. -/
def c1DemoT : TensorR :=
  { name := [], dims := [1], dtype := 2, start_offset := 32, len_bytes := 0 }

/-- The tensor record decoded from `c10Buf` at offset 64: the wrapped
payload length is the negative int64 value -32. -/
def c10DemoT : TensorR :=
  { name := [], dims := [8, 1073741823, 1073741825], dtype := 0,
    start_offset := 96, len_bytes := -32 }

/-- A tensor whose name `x` ends in neither `.weight` nor `.bias`. -/
def tBad : TensorR :=
  { name := [120], dims := [], dtype := 0, start_offset := 0, len_bytes := 0 }

/-- A one-entry canonical name table mapping base name `a` to `b`. -/
def nmW7 : List (List Nat × List Nat) := [([97], [98])]

/-- A three-dimensional tensor named `a.weight`. -/
def t7 : TensorR :=
  { name := [97] ++ wSuffix, dims := [2, 3, 4], dtype := 0,
    start_offset := 0, len_bytes := 0 }

/-- The record emitted for `t7` under `nmW7`. -/
def t7Out : EmittedTensor :=
  { mapped_name := [98] ++ wSuffix, dims := swapDims [2, 3, 4], dtype := 0,
    start_offset := 0, len_bytes := 0 }

/-- A directory whose only tensor carries the feed-forward name but a single
dimension. -/
def ffShort : List TensorR :=
  [{ name := ffTensorName, dims := [7], dtype := 0, start_offset := 0,
     len_bytes := 0 }]

/-- Prepending an element moves into the last-element position only when the
list is empty. -/
theorem getLast?_cons_optOr (y : Nat) (l : List Nat) :
    (y :: l).getLast? = optOr l.getLast? (some y) := by
  induction l generalizing y with
  | nil => rfl
  | cons z t ih =>
    rw [List.getLast?_cons_cons, ih z]
    cases h : t.getLast? <;> simp [optOr, h]

/-- A fold that overwrites its accumulator on every predicate hit returns
the last hit, and falls back to the initial accumulator when there is
none. -/
theorem foldl_pick_last (p : Nat → Bool) (l : List Nat) :
    ∀ acc, l.foldl (fun a x => if p x then some x else a) acc =
      optOr ((l.filter p).getLast?) acc := by
  induction l with
  | nil => intro acc; rfl
  | cons y t ih =>
    intro acc
    by_cases hp : p y = true
    · simp only [List.foldl_cons, List.filter_cons, hp, if_true]
      rw [ih (some y), getLast?_cons_optOr]
      cases h : (t.filter p).getLast? <;> simp [optOr, h]
    · have hp2 : p y = false := by simpa using hp
      simp only [List.foldl_cons, List.filter_cons, hp2, if_false,
        Bool.false_eq_true]
      exact ih acc

/-- Unrolling of the override-vocabulary fold from an arbitrary
accumulator. -/
theorem addVocabOverride_go (items : List OVItem) :
    ∀ acc : List (List Nat) × List Nat × List Nat,
      items.foldl
        (fun acc it =>
          match it with
          | OVItem.pair t s => (acc.1 ++ [t], acc.2.1 ++ [s], acc.2.2)
          | OVItem.triple t s ty =>
            (acc.1 ++ [t], acc.2.1 ++ [s], acc.2.2 ++ [ty])) acc =
      (acc.1 ++ items.map ovTok, acc.2.1 ++ items.map ovScore,
        acc.2.2 ++ items.filterMap ovType) := by
  induction items with
  | nil => intro acc; simp
  | cons it rest ih =>
    intro acc
    cases it with
    | pair t s =>
      simp only [List.foldl_cons, List.map_cons, List.filterMap_cons, ovTok,
        ovScore, ovType]
      rw [ih]
      simp
    | triple t s ty =>
      simp only [List.foldl_cons, List.map_cons, List.filterMap_cons, ovTok,
        ovScore, ovType]
      rw [ih]
      simp

/-- Positional access into the heuristic transcoding loop: the item at
position `i` is transcoded with token id `k + i`. -/
theorem heuristicGo_get_eq (items : List (List Nat × Nat)) :
    ∀ k i, (heuristicGo k items).get? i =
      (items.get? i).map (fun p => heuristicItem (k + i) p.1 p.2) := by
  induction items with
  | nil => intro k i; simp [heuristicGo]
  | cons hd tl ih =>
    intro k i
    cases hd with
    | mk b s =>
      cases i with
      | zero => simp [heuristicGo]
      | succ n =>
        simp only [heuristicGo, List.get?_cons_succ]
        rw [ih (k + 1) n]
        have h : k + 1 + n = k + (n + 1) := by omega
        rw [h]

/-- On a list with at least two elements the swap exchanges the first two
entries and keeps the tail. -/
theorem swapDims_long (l : List Nat) (h : 1 < l.length) :
    swapDims l = l.getD 1 0 :: l.getD 0 0 :: l.drop 2 := by
  match l with
  | [] => simp at h
  | [a] => simp at h
  | a :: b :: t =>
    unfold swapDims
    rw [if_pos h]
    rfl

/-- On a list with at most one element the swap is the identity. -/
theorem swapDims_short (l : List Nat) (h : l.length ≤ 1) : swapDims l = l := by
  unfold swapDims
  rw [if_neg (by omega)]

/-- Inversion of a successful name mapping: the name decomposes into a base
followed by one of the two suffixes, the base is found in the table, and the
suffix is re-appended to the canonical name. -/
theorem mapTensorName_ok (nm : List (List Nat × List Nat)) (name mn : List Nat)
    (h : mapTensorName nm name = Except.ok mn) :
    ∃ base m, nameMapGet nm base = some m ∧
      ((name = base ++ wSuffix ∧ mn = m ++ wSuffix) ∨
       (name = base ++ bSuffix ∧ mn = m ++ bSuffix)) := by
  unfold mapTensorName at h
  split at h
  · next hw =>
    have hw2 : name.drop (name.length - 7) = wSuffix := by
      simp only [endsWithL, Bool.and_eq_true, decide_eq_true_eq] at hw
      exact hw.2
    have hdec : name.take (name.length - 7) ++ wSuffix = name := by
      conv_rhs => rw [← List.take_append_drop (name.length - 7) name]
      rw [hw2]
    cases hm : nameMapGet nm (name.take (name.length - 7)) with
    | none => rw [hm] at h; exact absurd h (by simp)
    | some m =>
      rw [hm] at h
      cases h
      exact ⟨name.take (name.length - 7), m, hm, Or.inl ⟨hdec.symm, rfl⟩⟩
  · next hw =>
    split at h
    · next hb =>
      have hb2 : name.drop (name.length - 5) = bSuffix := by
        simp only [endsWithL, Bool.and_eq_true, decide_eq_true_eq] at hb
        exact hb.2
      have hdec : name.take (name.length - 5) ++ bSuffix = name := by
        conv_rhs => rw [← List.take_append_drop (name.length - 5) name]
        rw [hb2]
      cases hm : nameMapGet nm (name.take (name.length - 5)) with
      | none => rw [hm] at h; exact absurd h (by simp)
      | some m =>
        rw [hm] at h
        cases h
        exact ⟨name.take (name.length - 5), m, hm, Or.inr ⟨hdec.symm, rfl⟩⟩
    · next hb =>
      cases hm : nameMapGet nm name with
      | none => rw [hm] at h; exact absurd h (by simp)
      | some m => rw [hm] at h; exact absurd h (by simp)

/-- Every pair in the name-to-index map points back to the tensor at its
recorded position. -/
theorem tmapGo_mem :
    ∀ (ts : List TensorR) (k : Nat) (p : List Nat × Nat),
      p ∈ tmapGo k ts → ∃ i t, ts.get? i = some t ∧ p = (t.name, k + i) := by
  intro ts
  induction ts with
  | nil => intro k p hp; exact absurd hp (by simp [tmapGo])
  | cons t rest ih =>
    intro k p hp
    rw [tmapGo, List.mem_cons] at hp
    cases hp with
    | inl h => exact ⟨0, t, rfl, by rw [h]; simp⟩
    | inr h =>
      obtain ⟨i, u, hget, hpe⟩ := ih (k + 1) p h
      exact ⟨i + 1, u, hget, by rw [hpe]; congr 1; omega⟩

/-- A successful `tensor_map` lookup returns the position of a tensor that
carries the looked-up name. -/
theorem dictGet_buildTensorMap (ts : List TensorR) (k : List Nat) (idx : Nat)
    (h : dictGet (buildTensorMap ts) k = some idx) :
    ∃ t, ts.get? idx = some t ∧ t.name = k := by
  unfold dictGet at h
  cases hf : (buildTensorMap ts).reverse.find? (fun p => p.1 == k) with
  | none => rw [hf] at h; exact absurd h (by simp)
  | some p =>
    rw [hf] at h
    have hidx : p.2 = idx := by simpa using h
    have hp := List.find?_some hf
    have hp1 : p.1 = k := by simpa using hp
    have hpm : p ∈ buildTensorMap ts :=
      List.mem_reverse.mp (List.mem_of_find?_eq_some hf)
    obtain ⟨i, t, hget, hpe⟩ := tmapGo_mem ts 0 p hpm
    have hi : idx = i := by rw [← hidx, hpe]; simp
    refine ⟨t, by rw [hi]; exact hget, ?_⟩
    rw [← hp1, hpe]

/-- A successful multi-u32 read returns exactly the requested number of
values. -/
theorem readU32s_length :
    ∀ (n : Nat) (data : List Nat) (offset : Nat) (l : List Nat),
      readU32s data offset n = some l → l.length = n := by
  intro n
  induction n with
  | zero =>
    intro data offset l h
    cases h
    rfl
  | succ n ih =>
    intro data offset l h
    unfold readU32s at h
    cases hv : readU32 data offset with
    | none => rw [hv] at h; exact absurd h (by simp)
    | some v =>
      rw [hv] at h
      cases hr : readU32s data (offset + 4) n with
      | none => rw [hr] at h; exact absurd h (by simp)
      | some rest =>
        rw [hr] at h
        cases h
        simp [ih _ _ _ hr]

/-- Inversion of a successful directory-entry parse: the dtype resolves in
the catalog, the start offset is the 32-byte alignment of the position
after the entry header, the payload length is the floor division of the
int64-wrapped product, and the advance is start plus payload length minus
the entry position. -/
theorem tensorLoad_ok_inv (data : List Nat) (offset : Nat) (t : TensorR)
    (adv : Int) (h : tensorLoad data offset = Except.ok (t, adv)) :
    ∃ name_len blk ty,
      ggml_quant_sizes t.dtype = some (blk, ty) ∧
      t.start_offset =
        ((offset + 12 + 4 * t.dims.length + name_len + 31) / 32) * 32 ∧
      t.len_bytes =
        Int.fdiv (wrap64 (wrap64 (intProd t.dims) * (ty : Int))) (blk : Int) ∧
      adv = (t.start_offset : Int) + t.len_bytes - (offset : Int) := by
  unfold tensorLoad at h
  split at h
  · next n_dims name_len dtype hread =>
    split at h
    · split at h
      · split at h
        · exact absurd h (by simp)
        · next blksize tysize hq =>
          split at h
          · exact absurd h (by simp)
          · next dims hdims =>
            cases h
            have hlen := readU32s_length _ _ _ _ hdims
            exact ⟨name_len, blksize, tysize, hq, by rw [hlen], rfl, rfl⟩
      · exact absurd h (by simp)
    · exact absurd h (by simp)
  · exact absurd h (by simp)

/-- Every successfully parsed directory entry records a 32-byte-aligned
payload start. -/
theorem tensorLoad_start_aligned (data : List Nat) (offset : Nat) (t : TensorR)
    (adv : Int) (h : tensorLoad data offset = Except.ok (t, adv)) :
    t.start_offset % 32 = 0 := by
  obtain ⟨nl, blk, ty, hq, hstart, hlen, hadv⟩ :=
    tensorLoad_ok_inv data offset t adv h
  rw [hstart]
  exact Nat.mul_mod_left _ 32

/-- The directory scan preserves payload-start alignment of every
accumulated tensor. -/
theorem tensorsLoop_aligned (data : List Nat) :
    ∀ (fuel : Nat) (offset : Int) (fc : Bool) (acc out : List TensorR),
      tensorsLoop data fuel offset fc acc = Except.ok out →
      (∀ t ∈ acc, t.start_offset % 32 = 0) →
      ∀ t ∈ out, t.start_offset % 32 = 0 := by
  intro fuel
  induction fuel with
  | zero =>
    intro offset fc acc out h
    exact absurd h (by simp [tensorsLoop])
  | succ n ih =>
    intro offset fc acc out h hacc
    unfold tensorsLoop at h
    split at h
    · split at h
      · exact absurd h (by simp)
      · split at h
        · exact absurd h (by simp)
        · split at h
          · exact absurd h (by simp)
          · next t adv hload =>
            refine ih _ _ _ _ h ?_
            intro u hu
            rcases List.mem_append.mp hu with h1 | h2
            · exact hacc u h1
            · rw [List.mem_singleton] at h2
              rw [h2]
              exact tensorLoad_start_aligned _ _ _ _ hload
    · cases h
      exact hacc

/-- Claim C1 (amended): for every successfully parsed tensor directory
entry, the recorded payload byte length equals the floor division of the
int64-wrapped product of dimensions times the per-block byte size by the
block size; no exactness of the division is required, so a non-zero
remainder is silently discarded rather than raising a FormatError. -/
theorem tensor_len_bytes_floor :
    ∀ (data : List Nat) (offset : Nat) (t : TensorR) (adv : Int) (blk ty : Nat),
      tensorLoad data offset = Except.ok (t, adv) →
      ggml_quant_sizes t.dtype = some (blk, ty) →
      t.len_bytes =
        Int.fdiv (wrap64 (wrap64 (intProd t.dims) * (ty : Int))) (blk : Int) := by
  intro data offset t adv blk ty h hq
  obtain ⟨nl, blk2, ty2, hq2, hstart, hlen, hadv⟩ :=
    tensorLoad_ok_inv data offset t adv h
  rw [hq2] at hq
  have hbt : blk2 = blk ∧ ty2 = ty := by simpa using hq
  rw [hlen, hbt.1, hbt.2]

/-- Witness for C1 at the concrete entry of `c1Buf`: payload length
0 = floor of 18 by 32. -/
theorem tensor_len_bytes_floor_witness :
    c1DemoT.len_bytes =
      Int.fdiv (wrap64 (wrap64 (intProd [1]) * (18 : Int))) (32 : Int) :=
  tensor_len_bytes_floor c1Buf 0 c1DemoT 32 32 18 rfl rfl

/-- Counterexample to C1 as stated: the Q4_0 entry of `c1Buf` has element
count 1, so the division of `1 * 18` by the block size 32 leaves the
non-zero remainder 18, yet the parse succeeds instead of failing. -/
theorem tensor_inexact_division_cex :
    tensorLoad c1Buf 0 = Except.ok (c1DemoT, 32) ∧
      (intProd [1] * 18) % 32 ≠ 0 := ⟨rfl, by decide⟩

/-- Claim C2 (amended): in heuristic mode, a vocabulary entry whose token
id lies in [3, 258] and whose token is a single byte is emitted as the
literal pattern `<0x..>` with the byte rendered as uppercase hexadecimal
WITHOUT zero padding: one digit for byte values below 16 and two digits
otherwise; the entry is classified with the byte token type 6 and the
score is preserved. -/
theorem heuristic_byte_token_amended :
    ∀ (items : List (List Nat × Nat)) (i b s : Nat),
      items.get? i = some ([b], s) → 3 ≤ i → i ≤ 258 → b < 256 →
      (addVocabHeuristic items).get? i = some (byteTokenText b, s, 6) ∧
      (b < 16 → byteTokenText b = [60, 48, 120, hexDigit b, 62]) ∧
      (16 ≤ b →
        byteTokenText b =
          [60, 48, 120, hexDigit (b / 16), hexDigit (b % 16), 62]) := by
  intro items i b s hi h3 h258 hb
  refine ⟨?_, ?_, ?_⟩
  · unfold addVocabHeuristic
    rw [heuristicGo_get_eq, hi]
    simp [heuristicItem, h3, h258]
  · intro hlt
    simp [byteTokenText, hlt]
  · intro hge
    simp [byteTokenText, Nat.not_lt.mpr hge]

/-- Witness for C2: token id 3, byte 0x41, score 7 is emitted as
`<0x41>` with type 6. -/
theorem heuristic_byte_token_witness :
    (addVocabHeuristic [([0], 0), ([0], 0), ([0], 0), ([65], 7)]).get? 3 =
      some ([60, 48, 120, 52, 49, 62], 7, 6) :=
  (heuristic_byte_token_amended [([0], 0), ([0], 0), ([0], 0), ([65], 7)] 3 65 7
    rfl (by decide) (by decide) (by decide)).1

/-- Counterexample to C2 as stated: token id 3 with the single byte 0x01
is emitted as the five-byte text `<0x1>`, not the claimed two-digit
pattern `<0x01>`. -/
theorem heuristic_two_digit_cex :
    (addVocabHeuristic [([0], 0), ([0], 0), ([0], 0), ([1], 0)]).get? 3 =
        some ([60, 48, 120, 49, 62], 0, 6) ∧
      ([60, 48, 120, 49, 62] : List Nat) ≠ [60, 48, 120, 48, 49, 62] :=
  ⟨rfl, by decide⟩

/-- Claim C3 (amended): the resolved kv head count is the LAST candidate
`x` of the ascending scan of [1, 256) satisfying the equality test (the
loop overwrites on every hit and has no break), and resolution fails
exactly when no candidate matches; multiple simultaneous candidates
(possible only for `n_head = 0`, `gqa = 0`) do not cause a failure. -/
theorem resolveKvHead_eq (n_head : Nat) (gqa : Int) :
    resolveKvHead n_head gqa =
      ((List.range' 1 255).filter (kvHit n_head gqa)).getLast? := by
  unfold resolveKvHead
  rw [foldl_pick_last]
  cases h : ((List.range' 1 255).filter (kvHit n_head gqa)).getLast? <;>
    simp [optOr, h]

set_option maxRecDepth 4096 in
/-- Counterexample to C3 as stated: with `n_head = 0` and `gqa = 0` both
`x = 1` and `x = 2` (indeed every `x`) satisfy the test, yet the search
does not fail and returns the last candidate 255 rather than the first. -/
theorem resolve_kv_multi_candidate_cex :
    resolveKvHead 0 0 = some 255 ∧ kvHit 0 0 1 = true ∧ kvHit 0 0 2 = true ∧
      (some 255 : Option Nat) ≠ some 1 := by
  refine ⟨rfl, rfl, rfl, by decide⟩

/-- Claim C4: a tensor record is emitted only when its name decomposes as
a base followed by exactly one of the suffixes `.weight` or `.bias`, with
the canonical lookup performed on the stripped base and the suffix
re-appended; a tensor whose name ends in neither suffix is never emitted
(the mapping step fails). -/
theorem add_tensor_suffix_spec :
    ∀ (nm : List (List Nat × List Nat)) (t : TensorR),
      (∀ r, addTensorRecord nm t = Except.ok r →
        ∃ base m, nameMapGet nm base = some m ∧
          ((t.name = base ++ wSuffix ∧ r.mapped_name = m ++ wSuffix) ∨
           (t.name = base ++ bSuffix ∧ r.mapped_name = m ++ bSuffix))) ∧
      (endsWithL t.name wSuffix = false → endsWithL t.name bSuffix = false →
        (addTensorRecord nm t).isOk = false) := by
  intro nm t
  constructor
  · intro r h
    have hmn : ∃ mn, mapTensorName nm t.name = Except.ok mn ∧
        r.mapped_name = mn := by
      unfold addTensorRecord at h
      cases hm : mapTensorName nm t.name with
      | error e => rw [hm] at h; exact absurd h (by simp)
      | ok mn => rw [hm] at h; cases h; exact ⟨mn, rfl, rfl⟩
    obtain ⟨mn, hok, hr⟩ := hmn
    obtain ⟨base, m, hget, hcase⟩ := mapTensorName_ok nm t.name mn hok
    refine ⟨base, m, hget, ?_⟩
    cases hcase with
    | inl hc => exact Or.inl ⟨hc.1, by rw [hr, hc.2]⟩
    | inr hc => exact Or.inr ⟨hc.1, by rw [hr, hc.2]⟩
  · intro hw hb
    unfold addTensorRecord mapTensorName
    rw [if_neg (by simp [hw]), if_neg (by simp [hb])]
    cases hg : nameMapGet nm t.name <;> simp [Except.isOk, Except.toBool]

/-- Witness for C4: the tensor named `x` (no recognised suffix) is not
emitted. -/
theorem add_tensor_suffix_witness : (addTensorRecord [] tBad).isOk = false :=
  (add_tensor_suffix_spec [] tBad).2 (by decide) (by decide)

/-- Claim C5: after a successful decode of any container, every recorded
tensor payload start offset is a multiple of 32. -/
theorem decode_offsets_aligned :
    ∀ (fuel : Nat) (data : List Nat) (m : GGMLModel),
      ggmlLoad fuel data = Except.ok m →
      ∀ (i : Nat) (t : TensorR), m.tensors.get? i = some t →
        t.start_offset % 32 = 0 := by
  intro fuel data m h i t hget
  unfold ggmlLoad at h
  split at h
  · exact absurd h (by simp)
  · split at h
    · exact absurd h (by simp)
    · next hp hhp =>
      split at h
      · exact absurd h (by simp)
      · next vitems voff hvocab =>
        split at h
        · exact absurd h (by simp)
        · next tensors hloop =>
          split at h
          · exact absurd h (by simp)
          · next nff hnff =>
            cases h
            exact tensorsLoop_aligned data fuel _ false [] tensors hloop
              (by intro u hu; exact absurd hu (by simp))
              t (List.get?_mem hget)

set_option maxRecDepth 40000 in
/-- Witness for C5: the tensor decoded from the well-formed `demoBuf`
starts at offset 96, a multiple of 32. -/
theorem decode_offsets_aligned_witness : demoTensor.start_offset % 32 = 0 :=
  decode_offsets_aligned 2 demoBuf demoModel rfl 0 demoTensor rfl

/-- Claim C6: header validation succeeds exactly when the first four bytes
at the cursor equal the magic tag `tjgg` and the following little-endian
u32 equals the single supported version 3; every other magic or version
makes it fail. -/
theorem validate_header_iff (data : List Nat) (offset : Nat) :
    (validate_header data offset).isOk = true ↔
      ((data.drop offset).take 4 = ggmlMagic ∧
        readU32 data (offset + 4) = some 3) := by
  unfold validate_header
  by_cases hm : (data.drop offset).take 4 = ggmlMagic
  · rw [if_neg (by simp [hm])]
    cases hv : readU32 data (offset + 4) with
    | none => simp [Except.isOk, Except.toBool, hv, hm]
    | some v =>
      by_cases h3 : v = 3
      · subst h3; simp [Except.isOk, Except.toBool, hm]
      · simp [Except.isOk, Except.toBool, h3, hm]
  · simp [Except.isOk, Except.toBool, hm]

set_option maxRecDepth 8000 in
/-- Witness for C6: the header of `demoBuf` validates. -/
theorem validate_header_witness : (validate_header demoBuf 0).isOk = true :=
  (validate_header_iff demoBuf 0).2 ⟨rfl, rfl⟩

/-- Claim C7: every tensor record reported to the writer carries its first
two dimensions swapped exactly when the dimension count exceeds 1; with 0
or 1 dimensions the reported dimensions are unchanged. -/
theorem tensor_dims_swap_spec :
    ∀ (nm : List (List Nat × List Nat)) (t : TensorR) (r : EmittedTensor),
      addTensorRecord nm t = Except.ok r →
      (1 < t.dims.length →
        r.dims = t.dims.getD 1 0 :: t.dims.getD 0 0 :: t.dims.drop 2) ∧
      (t.dims.length ≤ 1 → r.dims = t.dims) := by
  intro nm t r h
  have hr : r.dims = swapDims t.dims := by
    unfold addTensorRecord at h
    cases hm : mapTensorName nm t.name with
    | error e => rw [hm] at h; exact absurd h (by simp)
    | ok mn => rw [hm] at h; cases h; rfl
  constructor
  · intro h1
    rw [hr, swapDims_long _ h1]
  · intro h1
    rw [hr, swapDims_short _ h1]

/-- Witness for C7: the 3-dimensional tensor `t7` with dims [2, 3, 4] is
reported with dims [3, 2, 4]. -/
theorem tensor_dims_swap_witness : t7Out.dims = [3, 2, 4] :=
  (tensor_dims_swap_spec nmW7 t7 t7Out rfl).1 (by decide)

/-- Claim C8 (amended): the override loop appends no type for an entry
that omits one — the emitted type list consists of exactly the types of
the type-bearing entries in order (and the token and score lists collect
every entry).  Because the writer receives plain ordered lists, the
association of types with token ids is positional, so an omitting token
can still end up associated with the type of a LATER entry. -/
theorem addVocabOverride_components (items : List OVItem) :
    addVocabOverride items =
      (items.map ovTok, items.map ovScore, items.filterMap ovType) := by
  unfold addVocabOverride
  rw [addVocabOverride_go]
  simp

/-- Counterexample to C8 as stated: entry 0 omits its type, entry 1
supplies type 5; the emitted records associate type 5 with token id 0. -/
theorem override_omitted_type_cex :
    overrideEmit [OVItem.pair [97] 10, OVItem.triple [98] 20 5] 2 =
        Except.ok ([[97], [98]], [10, 20], some [5]) ∧
      emittedTypeAt (some [5]) 0 = some 5 := ⟨rfl, rfl⟩

/-- Claim C9: the feed-forward derivation returns a value exactly when the
tensor map resolves the fixed feed-forward name to a tensor with at least
two dimensions, and the derived value is that second dimension; when the
named tensor has fewer than two dimensions the index access is out of
range and no value is returned. -/
theorem set_n_ff_spec :
    ∀ ts : List TensorR,
      (∀ v, set_n_ff (buildTensorMap ts) ts = some v ↔
        ∃ idx t, dictGet (buildTensorMap ts) ffTensorName = some idx ∧
          ts.get? idx = some t ∧ t.name = ffTensorName ∧
          t.dims.get? 1 = some v) ∧
      (∀ idx t, dictGet (buildTensorMap ts) ffTensorName = some idx →
        ts.get? idx = some t → t.dims.length < 2 →
        set_n_ff (buildTensorMap ts) ts = none) := by
  intro ts
  constructor
  · intro v
    constructor
    · intro h
      unfold set_n_ff at h
      cases hd : dictGet (buildTensorMap ts) ffTensorName with
      | none => rw [hd] at h; exact absurd h (by simp)
      | some idx =>
        rw [hd] at h
        have h2 : (match ts.get? idx with
          | none => none
          | some t => t.dims.get? 1) = some v := h
        cases hg : ts.get? idx with
        | none => rw [hg] at h2; exact absurd h2 (by simp)
        | some t =>
          rw [hg] at h2
          obtain ⟨u, hget2, hname⟩ :=
            dictGet_buildTensorMap ts ffTensorName idx hd
          have hu : u = t := by rw [hget2] at hg; injection hg
          exact ⟨idx, t, rfl, hg, by rw [← hu]; exact hname, h2⟩
    · rintro ⟨idx, t, hd, hg, hname, hv⟩
      unfold set_n_ff
      rw [hd]
      show (match ts.get? idx with
        | none => none
        | some t => t.dims.get? 1) = some v
      rw [hg]
      exact hv
  · intro idx t hd hg hlen
    unfold set_n_ff
    rw [hd]
    show (match ts.get? idx with
      | none => none
      | some t => t.dims.get? 1) = none
    rw [hg]
    exact List.get?_eq_none.mpr (by omega)

/-- Witness for C9: a directory whose feed-forward tensor has a single
dimension makes the derivation return no value. -/
theorem set_n_ff_witness : set_n_ff (buildTensorMap ffShort) ffShort = none :=
  (set_n_ff_spec ffShort).2 0
    { name := ffTensorName, dims := [7], dtype := 0, start_offset := 0,
      len_bytes := 0 } rfl rfl (by decide)

/-- Claim C10 (amended): a successful directory-entry parse advances the
cursor by at least the 12-byte fixed header PROVIDED the computed payload
byte length is non-negative; int64 wraparound in the element-count product
can make the payload length negative, in which case the advance can be
zero or negative and the scan loses its progress guarantee. -/
theorem tensor_advance_lower_bound :
    ∀ (data : List Nat) (offset : Nat) (t : TensorR) (adv : Int),
      tensorLoad data offset = Except.ok (t, adv) → 0 ≤ t.len_bytes →
      (12 : Int) ≤ adv := by
  intro data offset t adv h hnn
  obtain ⟨nl, blk, ty, hq, hstart, hlen, hadv⟩ :=
    tensorLoad_ok_inv data offset t adv h
  rw [hadv, hstart]
  omega

/-- Witness for C10: the entry of `c1Buf` has non-negative payload length
and advances the cursor by 32. -/
theorem tensor_advance_witness :
    (0 : Int) ≤ c1DemoT.len_bytes ∧ (12 : Int) ≤ 32 :=
  ⟨by decide, tensor_advance_lower_bound c1Buf 0 c1DemoT 32 rfl (by decide)⟩

/-- Counterexample to C10 as stated: the entry of `c10Buf` at offset 64
parses successfully with advance 0 (its int64-wrapped payload length is
-32), so an iteration of the directory scan need not advance the cursor at
all. -/
theorem tensor_zero_advance_cex :
    tensorLoad c10Buf 64 = Except.ok (c10DemoT, 0) ∧ ¬ ((12 : Int) ≤ 0) :=
  ⟨rfl, by decide⟩
